import Mathlib

/-!
Verification of the Agent Innovator Lab notebooks: shallow embeddings of the
LangGraph pipelines (Self-RAG, Corrective RAG, Plan-and-Execute, Multi-Agent
Supervisor), the Azure evaluation helpers, and the evaluator inventory, with
theorems settling the specification claims about them.

LLM and retriever calls are modelled as oracle parameters (functions supplied
to each embedded node); the Python code around them is translated directly.
LangGraph state-merge semantics (a node returns a partial update; unannotated
keys are overwritten, `operator.add` keys are appended) are made explicit via
update records and apply functions.
-/

set_option autoImplicit false
set_option linter.unnecessarySeqFocus false

namespace AgentLab

/-! ### Self-RAG data model (notebook `0_basic-agent/SK/1_basic-concept-with-sk.ipynb`)

`GraphState` is the TypedDict with fields `question`, `generation`,
`documents`.  A document carries its `page_content`. -/

structure Doc where
  page_content : String
  deriving DecidableEq, Repr

structure GraphState where
  question : String
  generation : String
  documents : List Doc
  deriving DecidableEq, Repr

/-- A partial state update as returned by a LangGraph node (`none` = key absent). -/
structure StateUpdate where
  question : Option String := none
  generation : Option String := none
  documents : Option (List Doc) := none
  deriving DecidableEq, Repr

/-- LangGraph merge for `GraphState`: every present key overwrites. -/
def applyUpdate (s : GraphState) (u : StateUpdate) : GraphState :=
  { question := u.question.getD s.question
    generation := u.generation.getD s.generation
    documents := u.documents.getD s.documents }

/-- The `for d in documents` loop of `grade_documents`: grades each document,
keeps those graded "yes" in order, and counts them.  Returns
`(filtered_docs, relevant_doc_count, number of grader invocations)`. -/
def gradeDocsLoop (grade : Doc → String) : List Doc → List Doc × Nat × Nat
  | [] => ([], 0, 0)
  | d :: ds =>
    let g := grade d
    let r := gradeDocsLoop grade ds
    if g == "yes" then (d :: r.1, r.2.1 + 1, r.2.2 + 1) else (r.1, r.2.1, r.2.2 + 1)

/-- `grade_documents` (Self-RAG variants): one grader call per document
(`retrieval_grader.invoke` resp. `document_evaluator`), returning the partial
update `{"documents": filtered_docs}`.  `docGrade question page_content` is
the grader oracle yielding `score.binary_score`. -/
def grade_documents (docGrade : String → String → String) (s : GraphState) : StateUpdate :=
  { documents := some (gradeDocsLoop (fun d => docGrade s.question d.page_content) s.documents).1 }

/-- Number of grader invocations `grade_documents` performs on a state. -/
def grade_documents_calls (docGrade : String → String → String) (s : GraphState) : Nat :=
  (gradeDocsLoop (fun d => docGrade s.question d.page_content) s.documents).2.2

/-- Binary grader oracles of the first Self-RAG variant. -/
structure Graders where
  docGrade : String → String → String
  groundedGrade : List Doc → String → String
  answerGrade : String → String → String

/-- `grade_generation_v_documents_and_question` (binary-grader variant):
invokes `groundedness_grader` once; when its `binary_score` is "yes" it also
invokes `answer_grader` once.  Returns the route string together with the
number of grader invocations performed. -/
def grade_generation_v_documents_and_question (g : Graders) (s : GraphState) : String × Nat :=
  if g.groundedGrade s.documents s.generation == "yes" then
    (if g.answerGrade s.question s.generation == "yes" then "relevant" else "not relevant", 2)
  else ("hallucination", 1)

/-- Azure AI Evaluation oracles of the second Self-RAG variant:
`groundedness context response` is `get_groundedness_score(...)["groundedness"]`
and `relevance query response` is `get_answer_relevace_score(...)["relevance"]`
(1-5 scales, modelled as rationals). -/
structure AzureEvals where
  groundedness : List Doc → String → ℚ
  relevance : String → String → ℚ

/-- `grade_generation_v_documents_and_question` (Azure-evaluator variant):
`if grade >= 4` on the groundedness score, then on the relevance score. -/
def grade_generation_azure (e : AzureEvals) (s : GraphState) : String :=
  if 4 ≤ e.groundedness s.documents s.generation then
    (if 4 ≤ e.relevance s.question s.generation then "relevant" else "not relevant")
  else "hallucination"

/-- `decide_to_generate`: `if not filtered_documents` then rewrite the query. -/
def decide_to_generate (s : GraphState) : String :=
  if s.documents = [] then "rewrite_query" else "generate"

/-- Nodes of the Self-RAG graph (`workflow.add_node` calls), plus START/END. -/
inductive SelfRagNode
  | START
  | retrieve
  | grade_documents
  | generate
  | rewrite_query
  | END
  deriving DecidableEq, Repr

/-- Conditional map after `grade_documents`:
`{"rewrite_query": "rewrite_query", "generate": "generate"}` (missing key = `none`). -/
def decideCondMap (r : String) : Option SelfRagNode :=
  if r == "rewrite_query" then some .rewrite_query
  else if r == "generate" then some .generate
  else none

/-- Conditional map after `generate`:
`{"hallucination": "generate", "relevant": END, "not relevant": "rewrite_query"}`. -/
def selfRagCondMap (r : String) : Option SelfRagNode :=
  if r == "hallucination" then some .generate
  else if r == "relevant" then some .END
  else if r == "not relevant" then some .rewrite_query
  else none

/-- One routing step of the Self-RAG graph (Azure-evaluator variant), from the
`add_edge` / `add_conditional_edges` wiring.  `s` is the state at the moment
the outgoing edge of the given node is evaluated; `none` means no outgoing
edge (only at END, where the run stops). -/
def selfRagStep (e : AzureEvals) (s : GraphState) : SelfRagNode → Option SelfRagNode
  | .START => some .retrieve
  | .retrieve => some .grade_documents
  | .grade_documents => decideCondMap (decide_to_generate s)
  | .rewrite_query => some .retrieve
  | .generate => selfRagCondMap (grade_generation_azure e s)
  | .END => none

/-! ### Corrective RAG (same notebook, later section)

The state gains a `web_search` flag; `grade_documents` additionally sets
`web_search = "Yes" if relevant_doc_count == 0 else "No"`, and the graph sends
`rewrite_query` through `web_search_node` to `generate`. -/

structure CragState where
  question : String
  generation : String
  web_search : String
  documents : List Doc
  deriving DecidableEq, Repr

structure CragUpdate where
  question : Option String := none
  generation : Option String := none
  web_search : Option String := none
  documents : Option (List Doc) := none
  deriving DecidableEq, Repr

def applyCragUpdate (s : CragState) (u : CragUpdate) : CragState :=
  { question := u.question.getD s.question
    generation := u.generation.getD s.generation
    web_search := u.web_search.getD s.web_search
    documents := u.documents.getD s.documents }

/-- Corrective-RAG `grade_documents`: filters the documents and sets the
`web_search` flag from `relevant_doc_count`. -/
def crag_grade_documents (docGrade : String → String → String) (s : CragState) : CragUpdate :=
  let r := gradeDocsLoop (fun d => docGrade s.question d.page_content) s.documents
  { documents := some r.1
    web_search := some (if r.2.1 = 0 then "Yes" else "No") }

/-- Corrective-RAG `decide_to_generate`: branches on the `web_search` flag. -/
def crag_decide_to_generate (s : CragState) : String :=
  if s.web_search = "Yes" then "rewrite_query" else "generate"

inductive CragNode
  | START
  | retrieve
  | grade_documents
  | generate
  | rewrite_query
  | web_search_node
  | END
  deriving DecidableEq, Repr

/-- Conditional map after Corrective-RAG `grade_documents`:
`{"rewrite_query": "rewrite_query", "generate": "generate"}`. -/
def cragCondMap (r : String) : Option CragNode :=
  if r == "rewrite_query" then some .rewrite_query
  else if r == "generate" then some .generate
  else none

/-- One routing step of the Corrective RAG graph, from its
`add_edge` / `add_conditional_edges` wiring. -/
def cragStep (s : CragState) : CragNode → Option CragNode
  | .START => some .retrieve
  | .retrieve => some .grade_documents
  | .grade_documents => cragCondMap (crag_decide_to_generate s)
  | .rewrite_query => some .web_search_node
  | .web_search_node => some .generate
  | .generate => some .END
  | .END => none

/-! ### Multi-Agent Supervisor
(notebook `1_agentic-design-ptn/03_multi-agent/LangGraph/01.1_multi-agent-supervisor.ipynb`) -/

/-- A chat message with a `name` tag, as built by `agent_node`. -/
structure Msg where
  content : String
  name : String
  deriving DecidableEq, Repr

/-- `AgentState`: `messages` is annotated with `operator.add`, `next` is a string. -/
structure AgentState where
  messages : List Msg
  next : String
  deriving DecidableEq, Repr

structure AgentUpdate where
  messages : Option (List Msg) := none
  next : Option String := none
  deriving DecidableEq, Repr

/-- LangGraph merge for `AgentState`: `messages` appends, `next` overwrites. -/
def applyAgentUpdate (s : AgentState) (u : AgentUpdate) : AgentState :=
  { messages := s.messages ++ u.messages.getD []
    next := u.next.getD s.next }

def supervisor_members : List String := ["Researcher", "Coder"]

/-- `options_for_next = ["FINISH"] + members`. -/
def options_for_next : List String := "FINISH" :: supervisor_members

/-- `RouteResponse.next : Literal["FINISH", "Researcher", "Coder"]` — the
structured output type of the supervisor. -/
inductive RouteNext
  | FINISH
  | Researcher
  | Coder
  deriving DecidableEq, Repr

def RouteNext.toStr : RouteNext → String
  | .FINISH => "FINISH"
  | .Researcher => "Researcher"
  | .Coder => "Coder"

/-- `supervisor_agent`: invokes the supervisor chain (oracle `sup`) and returns
its `RouteResponse`, which LangGraph merges into the state as the `next` key. -/
def supervisor_agent (sup : AgentState → RouteNext) (s : AgentState) : AgentUpdate :=
  { next := some (sup s).toStr }

/-- `agent_node`: invokes the member agent (oracle `agentResp` giving the last
message content) and returns its reply tagged with the member name, setting
`next` to "Supervisor". -/
def agent_node (agentResp : AgentState → String) (name : String) (s : AgentState) : AgentUpdate :=
  { messages := some [⟨agentResp s, name⟩]
    next := some "Supervisor" }

/-- `get_next`: `return state["next"]`. -/
def get_next (s : AgentState) : String := s.next

inductive SupNode
  | START
  | Supervisor
  | Researcher
  | Coder
  | END
  deriving DecidableEq, Repr

/-- `conditional_map = {k: k for k in members}; conditional_map["FINISH"] = END`. -/
def conditional_map (k : String) : Option SupNode :=
  if k == "Researcher" then some .Researcher
  else if k == "Coder" then some .Coder
  else if k == "FINISH" then some .END
  else none

/-- One routing step of the supervisor graph.  At the Supervisor node the
conditional edge evaluates `get_next` on the state merged with the supervisor
output; member nodes have the unconditional `add_edge(member, "Supervisor")`. -/
def supStep (sup : AgentState → RouteNext) (s : AgentState) : SupNode → Option SupNode
  | .START => some .Supervisor
  | .Supervisor => conditional_map (get_next (applyAgentUpdate s (supervisor_agent sup s)))
  | .Researcher => some .Supervisor
  | .Coder => some .Supervisor
  | .END => none

/-! ### Plan-and-Execute
(notebook `1_agentic-design-ptn/02_plan-and-execute/LangGraph/01.1_plan-and-execute.ipynb`) -/

/-- Pydantic `Plan`: sorted steps to execute. -/
structure PEPlan where
  steps : List String
  deriving DecidableEq, Repr

/-- Pydantic `Response`: response to user. -/
structure PEResponse where
  response : String
  deriving DecidableEq, Repr

/-- `Act.action : Union[Response, Plan]`. -/
inductive ActAction
  | response (r : PEResponse)
  | plan (p : PEPlan)
  deriving DecidableEq, Repr

structure Act where
  action : ActAction
  deriving DecidableEq, Repr

/-- `PlanExecute` TypedDict.  `response : Option String` models key absence
(`none` = the "response" key was never written); `past_steps` is annotated
with `operator.add`. -/
structure PlanExecute where
  input : String
  plan : List String
  past_steps : List (String × String)
  response : Option String
  deriving DecidableEq, Repr

structure PlanUpdate where
  input : Option String := none
  plan : Option (List String) := none
  past_steps : Option (List (String × String)) := none
  response : Option String := none
  deriving DecidableEq, Repr

/-- LangGraph merge for `PlanExecute`: `past_steps` appends, the rest overwrite;
an absent key leaves the state field unchanged. -/
def applyPlanUpdate (s : PlanExecute) (u : PlanUpdate) : PlanExecute :=
  { input := u.input.getD s.input
    plan := u.plan.getD s.plan
    past_steps := s.past_steps ++ u.past_steps.getD []
    response := match u.response with
      | some r => some r
      | none => s.response }

/-- `plan_step`: invokes the planner (oracle) on the input and writes its steps. -/
def plan_step (planner : String → PEPlan) (s : PlanExecute) : PlanUpdate :=
  { plan := some (planner s.input).steps }

/-- `execute_step`: `task = plan[0]` — `none` models the IndexError on an empty
plan; otherwise records `(task, agent response)` in `past_steps`. -/
def execute_step (agentResp : PlanExecute → String) (s : PlanExecute) : Option PlanUpdate :=
  match s.plan with
  | [] => none
  | task :: _ => some { past_steps := some [(task, agentResp s)] }

/-- `replan_step`: a `Response` action yields a response update; a `Plan`
action with zero steps yields the response "No more steps needed.", otherwise
the new plan. -/
def replan_step (replanner : PlanExecute → Act) (s : PlanExecute) : PlanUpdate :=
  match (replanner s).action with
  | .response r => { response := some r.response }
  | .plan p =>
    if p.steps.length = 0 then { response := some "No more steps needed." }
    else { plan := some p.steps }

/-- Python truthiness of `"response" in state and state["response"]`. -/
def truthyResponse (s : PlanExecute) : Bool :=
  match s.response with
  | some r => !(r == "")
  | none => false

/-- `should_end`: route to the final report exactly when the state has a
truthy response. -/
def should_end (s : PlanExecute) : String :=
  if truthyResponse s then "final_report" else "execute"

inductive PlanNode
  | START
  | planner
  | execute
  | replan
  | final_report
  | END
  deriving DecidableEq, Repr

/-- The unconditional `add_edge` calls of the Plan-and-Execute graph. -/
def planEdges : List (PlanNode × PlanNode) :=
  [(.START, .planner), (.planner, .execute), (.execute, .replan), (.final_report, .END)]

/-- Conditional map after `replan`: `{"execute": "execute", "final_report": "final_report"}`. -/
def planCondMap (r : String) : Option PlanNode :=
  if r == "execute" then some .execute
  else if r == "final_report" then some .final_report
  else none

/-- One routing step of the Plan-and-Execute graph; at `replan` the conditional
edge evaluates `should_end` on the state after `replan_step` merged. -/
def planGraphStep (s : PlanExecute) : PlanNode → Option PlanNode
  | .START => some .planner
  | .planner => some .execute
  | .execute => some .replan
  | .replan => planCondMap (should_end s)
  | .final_report => some .END
  | .END => none

/-! ### `monitor_status` (Azure AI Evaluation SDK notebook)

The Python function polls `project_client.evaluations.get(...).status` inside a
`tqdm(total=3)` progress bar.  We model the successive poll results as a list
of status strings (the first element is the initial fetch); running out of
list elements models a run that never reaches a terminal status. -/

/-- Exit condition of the polling loop:
`while status != "Completed" and status != "Failed"`. -/
def pollingDone (status : String) : Bool :=
  status == "Completed" || status == "Failed"

/-- The polling `while` loop: `status` is the current status, `n` the progress
bar count `pbar.n`, and the list holds the remaining poll results.  Returns
the bar count at loop exit, or `none` when the polls are exhausted before a
terminal status. -/
def pollLoop : String → Nat → List String → Option Nat
  | status, n, fetches =>
    if pollingDone status then some n
    else
      match fetches with
      | [] => none
      | s :: rest => pollLoop s (if status == "Running" && n < 2 then n + 1 else n) rest

/-- The trailing `while(pbar.n < 3): pbar.update(1)` loop. -/
def finalLoop (n : Nat) : Nat :=
  if n < 3 then finalLoop (n + 1) else n
termination_by 3 - n
decreasing_by omega

/-- `monitor_status` on a sequence of poll results: the initial fetch bumps the
bar on "Queued", then the polling loop runs, then the final loop tops the bar
up; the result is the bar count at return. -/
def monitor_status : List String → Option Nat
  | [] => none
  | s :: rest =>
    (pollLoop s (if s == "Queued" then 1 else 0) rest).map finalLoop

/-! ### Evaluator inventory (Azure AI Evaluation SDK usage across the repo)

Each entry records one evaluator used or defined by the repository: its name,
whether this repository supplies its prompt/rubric (as opposed to invoking a
stock SDK evaluator class with its built-in scoring definition), and the
rating levels of its scale. -/

structure EvaluatorUse where
  name : String
  promptDefinedInRepo : Bool
  ratings : List String
  deriving DecidableEq, Repr

/-- `GroundednessEvaluator(model_config)` as constructed in
`get_groundedness_score`: a stock SDK class with its built-in 1-5 scale
("Groundness_score (1-5; higher is better)"). -/
def groundednessEvaluatorUse : EvaluatorUse :=
  { name := "GroundednessEvaluator"
    promptDefinedInRepo := false
    ratings := ["1", "2", "3", "4", "5"] }

/-- `RelevanceEvaluator(model_config)` as constructed in
`get_answer_relevace_score`: stock SDK class, built-in 1-5 scale. -/
def relevanceEvaluatorUse : EvaluatorUse :=
  { name := "RelevanceEvaluator"
    promptDefinedInRepo := false
    ratings := ["1", "2", "3", "4", "5"] }

/-- `GroundednessProEvaluator(azure_ai_project, credential)` from the
evaluation-SDK notebooks: stock service-backed evaluator. -/
def groundednessProEvaluatorUse : EvaluatorUse :=
  { name := "GroundednessProEvaluator"
    promptDefinedInRepo := false
    ratings := ["1", "2", "3", "4", "5"] }

/-- `custom-groundedness.prompty` (`2_eval-design-ptn/02_azure-evaluation-sdk`):
name `customgroundedness`, a prompt and rubric written in this repository,
whose scale ranges over the rating headings `0.0` (Unrelated Response) and
`1.0` (Correct and Complete Response). -/
def customGroundednessPrompty : EvaluatorUse :=
  { name := "customgroundedness"
    promptDefinedInRepo := true
    ratings := ["0.0", "1.0"] }

/-- The evaluators used or defined by the repository. -/
def repoEvaluators : List EvaluatorUse :=
  [groundednessEvaluatorUse, relevanceEvaluatorUse, groundednessProEvaluatorUse,
    customGroundednessPrompty]

/-- Modelled from the specification words for the refinement comparison:
"the evaluation SDK usage is direct, unmodified invocation of Azure's
evaluator classes", i.e. no evaluator in the repository has a repo-defined
prompt, rating scale, or rubric. -/
def spec_all_evaluators_stock : Prop :=
  ∀ e ∈ repoEvaluators, e.promptDefinedInRepo = false

instance : Decidable spec_all_evaluators_stock := by
  unfold spec_all_evaluators_stock
  infer_instance

/-! ### Concrete inputs for witnesses and counterexamples -/

def exDocA : Doc := ⟨"alpha content"⟩

def exDocB : Doc := ⟨"beta content"⟩

/-- A state holding two retrieved documents. -/
def exStateTwoDocs : GraphState :=
  { question := "q", generation := "g", documents := [exDocA, exDocB] }

/-- Binary graders that answer "yes" everywhere. -/
def yesGraders : Graders :=
  { docGrade := fun _ _ => "yes"
    groundedGrade := fun _ _ => "yes"
    answerGrade := fun _ _ => "yes" }

/-- Azure evaluator oracles scoring groundedness 3 and relevance 5. -/
def evalsLowGrounded : AzureEvals :=
  { groundedness := fun _ _ => 3
    relevance := fun _ _ => 5 }

/-- A plan-and-execute state with a one-step plan and no response yet. -/
def exPlanState : PlanExecute :=
  { input := "objective", plan := ["step one"], past_steps := [], response := none }

/-- A replanner that always answers with a fresh one-step plan. -/
def exReplanner : PlanExecute → Act :=
  fun _ => ⟨.plan ⟨["next step"]⟩⟩

def exAgentResp : PlanExecute → String := fun _ => "done"

/-- Mapping a supervisor route to the node the conditional map names for it. -/
def routeTarget : RouteNext → SupNode
  | .FINISH => .END
  | .Researcher => .Researcher
  | .Coder => .Coder

/-! ### Helper lemmas about the grading loop -/

theorem gradeDocsLoop_filtered (grade : Doc → String) (l : List Doc) :
    (gradeDocsLoop grade l).1 = l.filter (fun d => grade d == "yes") := by
  induction l with
  | nil => rfl
  | cons d ds ih =>
    simp only [gradeDocsLoop, List.filter]
    cases h : grade d == "yes" <;> simp [h, ih]

theorem gradeDocsLoop_count (grade : Doc → String) (l : List Doc) :
    (gradeDocsLoop grade l).2.1 = (l.filter (fun d => grade d == "yes")).length := by
  induction l with
  | nil => rfl
  | cons d ds ih =>
    simp only [gradeDocsLoop, List.filter]
    cases h : grade d == "yes" <;> simp [h, ih]

theorem gradeDocsLoop_calls (grade : Doc → String) (l : List Doc) :
    (gradeDocsLoop grade l).2.2 = l.length := by
  induction l with
  | nil => rfl
  | cons d ds ih =>
    simp only [gradeDocsLoop]
    cases h : grade d == "yes" <;> simp [h, ih]

/-! ### Helper lemmas about the polling loop -/

theorem pollCountStep_le {status : String} {n : Nat} (h : n ≤ 2) :
    (if status == "Running" && n < 2 then n + 1 else n) ≤ 2 := by
  split
  next hc =>
    simp only [Bool.and_eq_true, decide_eq_true_eq] at hc
    omega
  next => exact h

/-- The polling loop exits at the first terminal status it sees, with a bar
count that never exceeds 2, and never looks at poll results beyond that
terminal status. -/
theorem pollLoop_reaches (t : String) (ht : pollingDone t = true) :
    ∀ (pre : List String) (status : String) (n : Nat) (post : List String),
      (∀ s ∈ pre, pollingDone s = false) → n ≤ 2 →
      ∃ m, m ≤ 2 ∧ pollLoop status n (pre ++ t :: post) = some m ∧
        pollLoop status n (pre ++ [t]) = some m := by
  intro pre
  induction pre with
  | nil =>
    intro status n post _ hn
    cases h : pollingDone status with
    | true =>
      refine ⟨n, hn, ?_, ?_⟩ <;> · unfold pollLoop; simp [h]
    | false =>
      refine ⟨if status == "Running" && n < 2 then n + 1 else n, pollCountStep_le hn, ?_, ?_⟩
      · show pollLoop status n ([] ++ t :: post) = _
        rw [List.nil_append]
        unfold pollLoop
        simp only [h, Bool.false_eq_true, if_false]
        unfold pollLoop
        simp [ht]
      · show pollLoop status n ([] ++ [t]) = _
        rw [List.nil_append]
        unfold pollLoop
        simp only [h, Bool.false_eq_true, if_false]
        unfold pollLoop
        simp [ht]
  | cons s pre ih =>
    intro status n post hpre hn
    cases h : pollingDone status with
    | true =>
      refine ⟨n, hn, ?_, ?_⟩ <;> · unfold pollLoop; simp [h]
    | false =>
      have hs : ∀ x ∈ pre, pollingDone x = false := fun x hx => hpre x (List.mem_cons_of_mem s hx)
      obtain ⟨m, hm, h1, h2⟩ :=
        ih s (if status == "Running" && n < 2 then n + 1 else n) post hs (pollCountStep_le hn)
      refine ⟨m, hm, ?_, ?_⟩
      · show pollLoop status n ((s :: pre) ++ t :: post) = _
        rw [List.cons_append]
        unfold pollLoop
        simp only [h, Bool.false_eq_true, if_false]
        exact h1
      · show pollLoop status n ((s :: pre) ++ [t]) = _
        rw [List.cons_append]
        unfold pollLoop
        simp only [h, Bool.false_eq_true, if_false]
        exact h2

/-- The trailing loop tops any bar count at most 3 up to exactly 3. -/
theorem finalLoop_eq_three : ∀ (k n : Nat), n + k = 3 → finalLoop n = 3
  | 0, n, h => by
    have hn : n = 3 := by omega
    subst hn
    unfold finalLoop
    simp
  | k + 1, n, h => by
    have hn : n < 3 := by omega
    unfold finalLoop
    rw [if_pos hn]
    exact finalLoop_eq_three k (n + 1) (by omega)

/-! ### Claim theorems -/

/-- Claim C1: in the Self-RAG pipeline graded with the Azure evaluators, a
groundedness score below 4 makes `grade_generation_v_documents_and_question`
return "hallucination" and the graph route back to `generate`; a score of at
least 4 proceeds to the relevance check, routing to END ("relevant") when the
relevance score is at least 4 and to `rewrite_query` ("not relevant")
otherwise. -/
theorem selfrag_groundedness_threshold_routing (e : AzureEvals) (s : GraphState) :
    (e.groundedness s.documents s.generation < 4 →
      grade_generation_azure e s = "hallucination" ∧
      selfRagStep e s .generate = some .generate) ∧
    (4 ≤ e.groundedness s.documents s.generation →
      (4 ≤ e.relevance s.question s.generation →
        grade_generation_azure e s = "relevant" ∧
        selfRagStep e s .generate = some .END) ∧
      (e.relevance s.question s.generation < 4 →
        grade_generation_azure e s = "not relevant" ∧
        selfRagStep e s .generate = some .rewrite_query)) := by
  constructor
  · intro h
    have h4 : ¬ 4 ≤ e.groundedness s.documents s.generation := not_le.mpr h
    have hr : grade_generation_azure e s = "hallucination" := by
      simp [grade_generation_azure, h4]
    refine ⟨hr, ?_⟩
    show selfRagCondMap (grade_generation_azure e s) = some .generate
    rw [hr]
    decide
  · intro h4
    constructor
    · intro h5
      have hr : grade_generation_azure e s = "relevant" := by
        simp [grade_generation_azure, h4, h5]
      refine ⟨hr, ?_⟩
      show selfRagCondMap (grade_generation_azure e s) = some .END
      rw [hr]
      decide
    · intro h5
      have h5n : ¬ 4 ≤ e.relevance s.question s.generation := not_le.mpr h5
      have hr : grade_generation_azure e s = "not relevant" := by
        simp [grade_generation_azure, h4, h5n]
      refine ⟨hr, ?_⟩
      show selfRagCondMap (grade_generation_azure e s) = some .rewrite_query
      rw [hr]
      decide

/-- Witness for C1: with groundedness score 3 (below 4) the router answers
"hallucination" and the graph loops back to `generate`. -/
theorem selfrag_groundedness_threshold_routing_witness :
    grade_generation_azure evalsLowGrounded exStateTwoDocs = "hallucination" ∧
    selfRagStep evalsLowGrounded exStateTwoDocs .generate = some .generate :=
  (selfrag_groundedness_threshold_routing evalsLowGrounded exStateTwoDocs).1
    (by norm_num [evalsLowGrounded])

/-- Claim C2 counterexample: on a state with two retrieved documents,
`grade_documents` performs two grader invocations (one per document), and when
the generation is graded grounded, `grade_generation_v_documents_and_question`
also performs two grader invocations — not exactly one in either case. -/
theorem grading_single_llm_call_counterexample :
    grade_documents_calls yesGraders.docGrade exStateTwoDocs ≠ 1 ∧
    grade_documents_calls yesGraders.docGrade exStateTwoDocs = 2 ∧
    (grade_generation_v_documents_and_question yesGraders exStateTwoDocs).2 ≠ 1 ∧
    (grade_generation_v_documents_and_question yesGraders exStateTwoDocs).2 = 2 := by
  decide

/-- Claim C2 amended: `grade_documents` performs one grader invocation per
retrieved document (so `|documents|` invocations in total), and
`grade_generation_v_documents_and_question` performs one groundedness-grader
invocation, plus one answer-grader invocation exactly when the groundedness
grade is "yes". -/
theorem grading_calls_per_document (g : Graders) (s : GraphState) :
    grade_documents_calls g.docGrade s = s.documents.length ∧
    (grade_generation_v_documents_and_question g s).2 =
      (if g.groundedGrade s.documents s.generation == "yes" then 2 else 1) := by
  constructor
  · exact gradeDocsLoop_calls _ _
  · cases h : g.groundedGrade s.documents s.generation == "yes" <;>
      simp [grade_generation_v_documents_and_question, h]

/-- Claim C9: `grade_documents` updates only the documents field (plus the
`web_search` flag in the Corrective RAG variant), leaving `question` and
`generation` unchanged, and the returned documents are the input documents
filtered to those graded "yes", in their original order — a sublist of the
input. -/
theorem grade_documents_frame (dg : String → String → String) (s : GraphState) (cs : CragState) :
    (applyUpdate s (grade_documents dg s)).question = s.question ∧
    (applyUpdate s (grade_documents dg s)).generation = s.generation ∧
    (applyUpdate s (grade_documents dg s)).documents =
      s.documents.filter (fun d => dg s.question d.page_content == "yes") ∧
    List.Sublist (applyUpdate s (grade_documents dg s)).documents s.documents ∧
    (applyCragUpdate cs (crag_grade_documents dg cs)).question = cs.question ∧
    (applyCragUpdate cs (crag_grade_documents dg cs)).generation = cs.generation ∧
    (applyCragUpdate cs (crag_grade_documents dg cs)).documents =
      cs.documents.filter (fun d => dg cs.question d.page_content == "yes") := by
  have h1 : (applyUpdate s (grade_documents dg s)).documents =
      s.documents.filter (fun d => dg s.question d.page_content == "yes") := by
    simp [applyUpdate, grade_documents, gradeDocsLoop_filtered]
  have h2 : (applyCragUpdate cs (crag_grade_documents dg cs)).documents =
      cs.documents.filter (fun d => dg cs.question d.page_content == "yes") := by
    simp [applyCragUpdate, crag_grade_documents, gradeDocsLoop_filtered]
  refine ⟨rfl, rfl, h1, ?_, rfl, rfl, h2⟩
  rw [h1]
  exact List.filter_sublist s.documents

/-- Claim C7: in the Corrective RAG graph, `grade_documents` sets `web_search`
to "Yes" exactly when zero documents were graded "yes"; `decide_to_generate`
returns "rewrite_query" exactly when `web_search` is "Yes"; and the
`rewrite_query` node always flows through `web_search_node` before
`generate`. -/
theorem crag_web_search_exactly_when_no_relevant_docs
    (dg : String → String → String) (s : CragState) :
    ((crag_grade_documents dg s).web_search = some "Yes" ↔
      (s.documents.filter (fun d => dg s.question d.page_content == "yes")).length = 0) ∧
    ((crag_grade_documents dg s).web_search = some "No" ↔
      (s.documents.filter (fun d => dg s.question d.page_content == "yes")).length ≠ 0) ∧
    (crag_decide_to_generate s = "rewrite_query" ↔ s.web_search = "Yes") ∧
    (crag_decide_to_generate s = "generate" ↔ s.web_search ≠ "Yes") ∧
    cragStep s .rewrite_query = some .web_search_node ∧
    cragStep s .web_search_node = some .generate := by
  have hcount : (crag_grade_documents dg s).web_search =
      some (if (s.documents.filter (fun d => dg s.question d.page_content == "yes")).length = 0
        then "Yes" else "No") := by
    simp [crag_grade_documents, gradeDocsLoop_count]
  refine ⟨?_, ?_, ?_, ?_, rfl, rfl⟩
  · rw [hcount]
    by_cases h : (s.documents.filter (fun d => dg s.question d.page_content == "yes")).length = 0 <;>
      simp [h]
  · rw [hcount]
    by_cases h : (s.documents.filter (fun d => dg s.question d.page_content == "yes")).length = 0 <;>
      simp [h]
  · by_cases h : s.web_search = "Yes" <;> simp [crag_decide_to_generate, h]
  · by_cases h : s.web_search = "Yes" <;> simp [crag_decide_to_generate, h]

/-- Claim C4: the Self-RAG graph never reaches END unless the last generation
was graded both grounded and relevant: from `generate`, a "hallucination"
grade routes back to `generate`, a "not relevant" grade routes to
`rewrite_query`, only a "relevant" grade routes to END, and no step from any
node other than `generate` can reach END. -/
theorem selfrag_end_only_when_grounded_and_relevant
    (e : AzureEvals) (s : GraphState) (n : SelfRagNode) :
    (selfRagStep e s .generate = some .generate ↔
      grade_generation_azure e s = "hallucination") ∧
    (selfRagStep e s .generate = some .rewrite_query ↔
      grade_generation_azure e s = "not relevant") ∧
    (selfRagStep e s .generate = some .END ↔
      grade_generation_azure e s = "relevant") ∧
    (selfRagStep e s n = some .END ↔
      n = .generate ∧ grade_generation_azure e s = "relevant") := by
  have hstep : ∀ m : SelfRagNode, selfRagStep e s .generate = some m ↔
      selfRagCondMap (grade_generation_azure e s) = some m := fun m => Iff.rfl
  have hcond : ∀ m : SelfRagNode,
      (selfRagCondMap (grade_generation_azure e s) = some m ↔
        selfRagCondMap (grade_generation_azure e s) = some m) := fun _ => Iff.rfl
  by_cases h1 : 4 ≤ e.groundedness s.documents s.generation
  · by_cases h2 : 4 ≤ e.relevance s.question s.generation
    · have hr : grade_generation_azure e s = "relevant" := by
        simp [grade_generation_azure, h1, h2]
      refine ⟨?_, ?_, ?_, ?_⟩
      · rw [hstep, hr]
        simp [selfRagCondMap]
      · rw [hstep, hr]
        simp [selfRagCondMap]
      · rw [hstep, hr]
        simp [selfRagCondMap]
      · cases n <;> simp [selfRagStep, hr, selfRagCondMap, decideCondMap, decide_to_generate] <;>
          by_cases hd : s.documents = [] <;> simp [hd]
    · have hr : grade_generation_azure e s = "not relevant" := by
        simp [grade_generation_azure, h1, h2]
      refine ⟨?_, ?_, ?_, ?_⟩
      · rw [hstep, hr]
        simp [selfRagCondMap]
      · rw [hstep, hr]
        simp [selfRagCondMap]
      · rw [hstep, hr]
        simp [selfRagCondMap]
      · cases n <;> simp [selfRagStep, hr, selfRagCondMap, decideCondMap, decide_to_generate] <;>
          by_cases hd : s.documents = [] <;> simp [hd]
  · have hr : grade_generation_azure e s = "hallucination" := by
      simp [grade_generation_azure, h1]
    refine ⟨?_, ?_, ?_, ?_⟩
    · rw [hstep, hr]
      simp [selfRagCondMap]
    · rw [hstep, hr]
      simp [selfRagCondMap]
    · rw [hstep, hr]
      simp [selfRagCondMap]
    · cases n <;> simp [selfRagStep, hr, selfRagCondMap, decideCondMap, decide_to_generate] <;>
        by_cases hd : s.documents = [] <;> simp [hd]

/-- Claim C5: the supervisor alone selects the next agent — its structured
output always lies in `["FINISH", "Researcher", "Coder"]`; `get_next` returns
exactly the state's `next` field; the conditional map sends each route to the
named member node and "FINISH" to END; and after every member agent node
control returns to the Supervisor (`agent_node` sets `next` to "Supervisor"
and each member has an unconditional edge back to Supervisor). -/
theorem supervisor_routing_invariant (sup : AgentState → RouteNext) (s : AgentState)
    (r : RouteNext) (agentResp : AgentState → String) (name : String) :
    RouteNext.toStr r ∈ options_for_next ∧
    get_next s = s.next ∧
    supStep sup s .Supervisor = conditional_map (RouteNext.toStr (sup s)) ∧
    conditional_map (RouteNext.toStr r) = some (routeTarget r) ∧
    (agent_node agentResp name s).next = some "Supervisor" ∧
    supStep sup s .Researcher = some .Supervisor ∧
    supStep sup s .Coder = some .Supervisor := by
  refine ⟨?_, rfl, rfl, ?_, rfl, rfl, rfl⟩
  · cases r <;> decide
  · cases r <;> decide

/-- Python truthiness of the `response` field, as a proposition. -/
theorem truthyResponse_iff (s : PlanExecute) :
    truthyResponse s = true ↔ ∃ r, s.response = some r ∧ r ≠ "" := by
  unfold truthyResponse
  cases h : s.response with
  | none => simp [h]
  | some r =>
    simp only [h, Bool.not_eq_true', beq_eq_false_iff_ne, ne_eq]
    constructor
    · intro hr
      exact ⟨r, rfl, hr⟩
    · rintro ⟨x, hx, hne⟩
      cases hx
      exact hne

/-- Claim C6: the Plan-and-Execute graph separates planning from execution:
the only edge out of START goes to `planner`; `plan_step` writes the planner
output into the `plan` field and `planner` flows to `execute`, `execute` to
`replan`; after `replan` the graph goes to `final_report` exactly when the
state holds a non-empty `response` and back to `execute` otherwise. -/
theorem plan_and_execute_separation (planner : String → PEPlan) (s : PlanExecute) :
    planEdges.filter (fun e => e.1 == PlanNode.START) = [(.START, .planner)] ∧
    planGraphStep s .START = some .planner ∧
    (applyPlanUpdate s (plan_step planner s)).plan = (planner s.input).steps ∧
    planGraphStep s .planner = some .execute ∧
    planGraphStep s .execute = some .replan ∧
    (planGraphStep s .replan = some .final_report ↔ ∃ r, s.response = some r ∧ r ≠ "") ∧
    (planGraphStep s .replan = some .execute ↔ ¬ ∃ r, s.response = some r ∧ r ≠ "") := by
  refine ⟨by decide, rfl, rfl, rfl, rfl, ?_, ?_⟩
  · rw [← truthyResponse_iff]
    show planCondMap (should_end s) = some .final_report ↔ _
    unfold should_end
    cases h : truthyResponse s <;> simp [h, planCondMap]
  · rw [← truthyResponse_iff]
    show planCondMap (should_end s) = some .execute ↔ _
    unfold should_end
    cases h : truthyResponse s <;> simp [h, planCondMap]

/-- Claim C8: `replan_step` never writes an empty plan: every replanner output
yields either a response update (for a `Response` action, or for a zero-step
`Plan`, when the response is "No more steps needed.") or a plan with at least
one step; consequently, on the replan-to-execute path (the state's plan being
non-empty when `replan` runs), `execute_step`'s indexing of `plan[0]` cannot
fail. -/
theorem replan_step_never_empty_plan (replanner : PlanExecute → Act)
    (agentResp : PlanExecute → String) (s : PlanExecute) (hplan : s.plan ≠ []) :
    ((∃ r, (replan_step replanner s).response = some r ∧
        (replan_step replanner s).plan = none) ∨
      (∃ p, (replan_step replanner s).plan = some p ∧ 1 ≤ p.length ∧
        (replan_step replanner s).response = none)) ∧
    (applyPlanUpdate s (replan_step replanner s)).plan ≠ [] ∧
    execute_step agentResp (applyPlanUpdate s (replan_step replanner s)) ≠ none := by
  have hexec : ∀ s' : PlanExecute, s'.plan ≠ [] → execute_step agentResp s' ≠ none := by
    intro s' h
    unfold execute_step
    cases hp : s'.plan with
    | nil => exact absurd hp h
    | cons a l => simp
  cases hact : (replanner s).action with
  | response r =>
    have hu : replan_step replanner s = { response := some r.response } := by
      unfold replan_step
      rw [hact]
    have hmerge : (applyPlanUpdate s (replan_step replanner s)).plan = s.plan := by
      rw [hu]
      rfl
    refine ⟨Or.inl ⟨r.response, by rw [hu], by rw [hu]⟩, ?_, ?_⟩
    · rw [hmerge]
      exact hplan
    · exact hexec _ (by rw [hmerge]; exact hplan)
  | plan p =>
    by_cases hlen : p.steps.length = 0
    · have hu : replan_step replanner s = { response := some "No more steps needed." } := by
        simp [replan_step, hact, hlen]
      have hmerge : (applyPlanUpdate s (replan_step replanner s)).plan = s.plan := by
        rw [hu]
        rfl
      refine ⟨Or.inl ⟨"No more steps needed.", by rw [hu], by rw [hu]⟩, ?_, ?_⟩
      · rw [hmerge]
        exact hplan
      · exact hexec _ (by rw [hmerge]; exact hplan)
    · have hu : replan_step replanner s = { plan := some p.steps } := by
        simp [replan_step, hact, hlen]
      have hmerge : (applyPlanUpdate s (replan_step replanner s)).plan = p.steps := by
        rw [hu]
        rfl
      have hne : p.steps ≠ [] := by
        intro hnil
        exact hlen (by rw [hnil]; rfl)
      refine ⟨Or.inr ⟨p.steps, by rw [hu], by omega, by rw [hu]⟩, ?_, ?_⟩
      · rw [hmerge]
        exact hne
      · exact hexec _ (by rw [hmerge]; exact hne)

/-- Witness for C8: on a one-step plan with a replanner that answers with a
fresh one-step plan, the subsequent `execute_step` indexing succeeds. -/
theorem replan_step_never_empty_plan_witness :
    execute_step exAgentResp (applyPlanUpdate exPlanState (replan_step exReplanner exPlanState)) ≠
      none :=
  (replan_step_never_empty_plan exReplanner exAgentResp exPlanState (by decide)).2.2

/-- Claim C10: `monitor_status` terminates on every poll sequence that
eventually yields "Completed" or "Failed": the polling loop exits at the first
terminal status (later poll results are irrelevant), and the trailing loop
raises the progress-bar count from at most 2 to exactly 3 at return, whether
or not "Queued" or "Running" were ever observed. -/
theorem monitor_status_terminates (pre post : List String) (t : String)
    (hpre : ∀ s ∈ pre, pollingDone s = false) (ht : pollingDone t = true) :
    monitor_status (pre ++ t :: post) = some 3 ∧
    monitor_status (pre ++ t :: post) = monitor_status (pre ++ [t]) := by
  cases pre with
  | nil =>
    have hpoll : ∀ (n : Nat) (fetches : List String), pollLoop t n fetches = some n := by
      intro n fetches
      unfold pollLoop
      simp [ht]
    have hn0 : (if t == "Queued" then 1 else 0) ≤ 2 := by
      split <;> omega
    have hfin : finalLoop (if t == "Queued" then 1 else 0) = 3 :=
      finalLoop_eq_three (3 - (if t == "Queued" then 1 else 0)) _ (by omega)
    constructor
    · rw [List.nil_append]
      simp only [monitor_status]
      rw [hpoll, Option.map_some', hfin]
    · rw [List.nil_append, List.nil_append]
      simp only [monitor_status]
      rw [hpoll, hpoll]
  | cons s0 pre =>
    have hn0 : (if s0 == "Queued" then 1 else 0) ≤ 2 := by
      split <;> omega
    have hrest : ∀ x ∈ pre, pollingDone x = false :=
      fun x hx => hpre x (List.mem_cons_of_mem s0 hx)
    obtain ⟨m, hm, h1, h2⟩ :=
      pollLoop_reaches t ht pre s0 (if s0 == "Queued" then 1 else 0) post hrest hn0
    have hfin : finalLoop m = 3 := finalLoop_eq_three (3 - m) m (by omega)
    constructor
    · show monitor_status (s0 :: (pre ++ t :: post)) = some 3
      simp only [monitor_status]
      rw [h1, Option.map_some', hfin]
    · show monitor_status (s0 :: (pre ++ t :: post)) = monitor_status (s0 :: (pre ++ [t]))
      simp only [monitor_status]
      rw [h1, h2]

/-- Witness for C10: the poll sequence Queued, Running, Completed (with a
trailing result that is never fetched) ends with the bar at exactly 3, and
equals the run truncated at the first terminal status. -/
theorem monitor_status_terminates_witness :
    monitor_status (["Queued", "Running"] ++ "Completed" :: ["Running"]) = some 3 ∧
    monitor_status (["Queued", "Running"] ++ "Completed" :: ["Running"]) =
      monitor_status (["Queued", "Running"] ++ ["Completed"]) :=
  monitor_status_terminates ["Queued", "Running"] ["Running"] "Completed"
    (by decide) (by decide)

/-- Claim C3 counterexample: the repository does not only invoke stock Azure
evaluator classes — it ships `custom-groundedness.prompty`, an evaluator named
`customgroundedness` whose prompt and rating scale (0.0 / 1.0) are defined by
this repository. -/
theorem evaluators_unmodified_counterexample :
    ¬ spec_all_evaluators_stock ∧
    customGroundednessPrompty ∈ repoEvaluators ∧
    customGroundednessPrompty.promptDefinedInRepo = true ∧
    customGroundednessPrompty.name = "customgroundedness" := by
  refine ⟨?_, by decide, by decide, by decide⟩
  intro h
  exact absurd (h customGroundednessPrompty (by decide)) (by decide)

/-- Claim C3 amended: the notebook quality evaluations instantiate stock Azure
SDK evaluator classes with their built-in scoring (1-5 scales), and exactly
one evaluator in the repository — the `customgroundedness` prompty — has a
repo-defined prompt, whose 0.0/1.0 rating scale differs from the stock
groundedness scale. -/
theorem evaluators_stock_except_custom_prompty :
    (repoEvaluators.filter (fun e => e.promptDefinedInRepo)).map (fun e => e.name) =
      ["customgroundedness"] ∧
    customGroundednessPrompty.ratings = ["0.0", "1.0"] ∧
    groundednessEvaluatorUse.ratings = ["1", "2", "3", "4", "5"] ∧
    customGroundednessPrompty.ratings ≠ groundednessEvaluatorUse.ratings := by
  refine ⟨by decide, by decide, by decide, by decide⟩

end AgentLab
